import Mathlib

/-!
Shallow embedding of `src/simulator/src/traversal/mpp.rs` from the
lightning-mpp-simulator repository: the multi-part-payment (MPP) engine
`Simulation::send_mpp_payment` / `Simulation::send_mpp_shards`.

Collaborators that live outside `src/` (the single-shard sender
`send_one_payment`, the splitter `Payment::split_payment`, the reverter
`revert_payment`, the balance queries and the event queue) are abstracted as
explicit parameters collected in `Env`; where a claim depends on their
behaviour, their contract is modelled from the spec as a named predicate or a
reference instance, each marked `Modelled from the spec`.
-/

namespace MppSim

/-- Provisional credit record `(node, channel, credited amount)`: one entry of
`Payment.successful_shards`. In `mpp.rs` the tuple is indexed `s.0`, `s.1`,
`s.2`; here the components are `.1`, `.2.1`, `.2.2`. -/
abbrev Credit := String × String × Nat

/-- A candidate route, after `CandidatePath` in the repository: the path's hops
are `(node, forwarded amount, added latency, channel id)`, plus the carried
amount and the total latency. The floating-point cost weight is omitted: no
claim depends on it and it plays no role in `mpp.rs`. -/
structure CandidatePath where
  hops : List (String × Nat × Nat × String)
  amount : Nat
  time : Nat
deriving DecidableEq

/-- The `Payment` record, after the `Payment` struct used by `mpp.rs` (field
list as in the constructors appearing in `mpp.rs`'s tests, lines 158-171). -/
structure Payment where
  payment_id : Nat
  source : String
  dest : String
  amount_msat : Nat
  succeeded : Bool
  min_shard_amt : Nat
  htlc_attempts : Nat
  num_parts : Nat
  used_paths : List CandidatePath
  failed_amounts : List Nat
  successful_shards : List Credit
  failed_paths : List CandidatePath
deriving DecidableEq

/-- Terminal events, after `PaymentEvent::UpdateSuccesful` and
`PaymentEvent::UpdateFailed` carrying the payment snapshot. -/
inductive PaymentEvent where
  | updateSuccessful (payment : Payment)
  | updateFailed (payment : Payment)
deriving DecidableEq

/-- Result of one single-shard send. The Rust collaborator
`send_one_payment(&mut self, &mut shard) -> (bool, Vec<_>)` returns the
success flag and the credits to reverse and, in addition, mutates the shard
and the simulation's graph; those mutations are returned explicitly here. -/
structure SendResult (G : Type) where
  success : Bool
  to_reverse : List Credit
  shard : Payment
  graph : G

/-- The engine's collaborators (all of them outside `src/`), as explicit
parameters over an abstract graph/ledger state `G`. -/
structure Env (G : Type) where
  get_total_node_balance : G → String → Nat
  get_max_receive_amount : G → String → Nat
  send_one_payment : G → Payment → SendResult G
  split_payment : Payment → Option (Payment × Payment)
  revert_payment : G → List Credit → G

/-- Observable scheduler events, recorded so that the determinism and the
drain/early-exit claims can speak about the sequence of attempts and splits:
one `attempt` per processed shard (its amount, the success flag, the attempts
newly charged by this send, the returned credits) and one `split` per split
operation (the two child amounts). -/
inductive TraceEv where
  | attempt (amount : Nat) (success : Bool) (newly : Nat) (credits : List Credit)
  | split (amt1 amt2 : Nat)
deriving DecidableEq

/-- Sum of the provisional credits landing at `dest`: the `amount_received`
accumulation of `mpp.rs` lines 114-119. -/
def creditSumAt (cs : List Credit) (dest : String) : Nat :=
  cs.foldl (fun acc s => if s.1 = dest then acc + s.2.2 else acc) 0

/-- The mutable state of the `while let Some(..) = stack.pop()` loop of
`send_mpp_shards` (`mpp.rs` lines 71-126): the root payment, the shard stack
(list head = stack top), the loop-local `num_parts` counter, the
`succeeded`/`failed` flags, the graph, and the recorded event trace. -/
structure ShardState (G : Type) where
  root : Payment
  stack : List Payment
  num_parts : Nat
  succeeded : Bool
  failed : Bool
  graph : G
  trace : List TraceEv

variable {G : Type}

/-- The body of the scheduler loop guarded by `if !succeeded && !failed`
(`mpp.rs` lines 78-111), run on the popped `current_shard`. Mirrors the
source line by line: increment `num_parts`, send the shard, merge its attempt
count and failed paths into the root (the Rust `append` drains the shard's
`failed_paths`), then branch on failure (record the failed amount; abort past
`maxParts`; otherwise split and push both children with the root's accumulated
failed amounts) or success (bump `num_parts` on the root, append the used
paths and the credits). -/
def shardStep (env : Env G) (maxParts : Nat) (st : ShardState G)
    (current_shard : Payment) : ShardState G :=
  let num_parts := st.num_parts + 1
  let r := env.send_one_payment st.graph current_shard
  let newly := r.shard.htlc_attempts - current_shard.htlc_attempts
  let root0 := { st.root with
    htlc_attempts := st.root.htlc_attempts + r.shard.htlc_attempts
    failed_paths := st.root.failed_paths ++ r.shard.failed_paths }
  let current := { r.shard with failed_paths := [] }
  let base := { st with
    root := root0
    num_parts := num_parts
    graph := r.graph
    trace := st.trace ++ [TraceEv.attempt current.amount_msat r.success newly r.to_reverse] }
  if !r.success && !st.failed then
    let root1 := { root0 with failed_amounts := root0.failed_amounts ++ [current.amount_msat] }
    if num_parts > maxParts then
      { base with root := root1, failed := true }
    else
      match env.split_payment current with
      | some shards =>
          let shard1 := { shards.1 with failed_amounts := root1.failed_amounts }
          let shard2 := { shards.2 with failed_amounts := root1.failed_amounts }
          { base with
            root := root1
            stack := shard2 :: shard1 :: base.stack
            trace := base.trace ++ [TraceEv.split shard1.amount_msat shard2.amount_msat] }
      | none => { base with root := root1, failed := true }
  else if r.success then
    { base with root := { root0 with
        num_parts := root0.num_parts + 1
        used_paths := root0.used_paths ++ r.shard.used_paths
        successful_shards := root0.successful_shards ++ r.to_reverse } }
  else base

/-- The per-iteration success check (`mpp.rs` lines 113-125), which the source
runs on every iteration, drained ones included: if the credits landing at the
destination sum to the requested amount, declare success and clear the credit
ledger. -/
def checkStep (st : ShardState G) : ShardState G :=
  if creditSumAt st.root.successful_shards st.root.dest = st.root.amount_msat then
    { st with
      succeeded := true
      root := { st.root with succeeded := true, successful_shards := [] } }
  else st

/-- One full iteration of the scheduler loop on the popped shard: the guarded
body, then the success check. -/
def shardIter (env : Env G) (maxParts : Nat) (st : ShardState G)
    (current_shard : Payment) : ShardState G :=
  checkStep (if !st.succeeded && !st.failed then shardStep env maxParts st current_shard else st)

/-- The scheduler's work-list loop (`mpp.rs` lines 76-126), with explicit
fuel. `shardsFuel` below is always enough fuel for the loop to drain the
stack (see the termination claim), so the fuel never alters the behaviour of
the modelled loop. -/
def mppLoop (env : Env G) (maxParts : Nat) : Nat → ShardState G → ShardState G
  | 0, st => st
  | fuel + 1, st =>
    match st.stack with
    | [] => st
    | current_shard :: rest =>
        mppLoop env maxParts fuel (shardIter env maxParts { st with stack := rest } current_shard)

/-- Early-exit variant of the scheduler loop, for the drain/early-exit
equivalence claim: identical to `mppLoop` except that it leaves the loop as
soon as a verdict is fixed instead of draining the remaining shards. -/
def mppLoopEarly (env : Env G) (maxParts : Nat) : Nat → ShardState G → ShardState G
  | 0, st => st
  | fuel + 1, st =>
    if st.succeeded || st.failed then st
    else
      match st.stack with
      | [] => st
      | current_shard :: rest =>
          mppLoopEarly env maxParts fuel (shardIter env maxParts { st with stack := rest } current_shard)

/-- Fuel that always suffices to drain the work list: the loop pops at most
`1 + 2 * maxParts` shards in total (each of the at most `maxParts` splitting
iterations pushes two). -/
def shardsFuel (maxParts : Nat) : Nat := 2 * maxParts + 3

/-- The loop's entry state (`mpp.rs` lines 71-75): the stack holds one clone
of the root, counters and flags are fresh. -/
def initState (g : G) (root : Payment) : ShardState G :=
  { root := root, stack := [root], num_parts := 0,
    succeeded := false, failed := false, graph := g, trace := [] }

/-- The scheduler loop as invoked by `send_mpp_shards`. -/
def shardsRun (env : Env G) (maxParts : Nat) (g : G) (root : Payment) : ShardState G :=
  mppLoop env maxParts (shardsFuel maxParts) (initState g root)

/-- Result of `send_mpp_shards`: the returned verdict, the root payment and
the graph after the call, the event trace, and the credit list passed to
`revert_payment` when it was invoked (`none` when it was not). -/
structure MppResult (G : Type) where
  verdict : Bool
  payment : Payment
  graph : G
  trace : List TraceEv
  reverted : Option (List Credit)
deriving DecidableEq

/-- `Simulation::send_mpp_shards` (`mpp.rs` lines 65-135): run the loop; on a
missing success verdict, revert the remaining successful shards and clear the
root's used paths. -/
def send_mpp_shards (env : Env G) (maxParts : Nat) (g : G) (root : Payment) : MppResult G :=
  let st := shardsRun env maxParts g root
  if !st.succeeded then
    { verdict := st.succeeded
      payment := { st.root with used_paths := [] }
      graph := env.revert_payment st.graph st.root.successful_shards
      trace := st.trace
      reverted := some st.root.successful_shards }
  else
    { verdict := st.succeeded, payment := st.root, graph := st.graph,
      trace := st.trace, reverted := none }

/-- The early-exit counterpart of `send_mpp_shards`, identical except for
using `mppLoopEarly`. -/
def send_mpp_shards_early (env : Env G) (maxParts : Nat) (g : G) (root : Payment) : MppResult G :=
  let st := mppLoopEarly env maxParts (shardsFuel maxParts) (initState g root)
  if !st.succeeded then
    { verdict := st.succeeded
      payment := { st.root with used_paths := [] }
      graph := env.revert_payment st.graph st.root.successful_shards
      trace := st.trace
      reverted := some st.root.successful_shards }
  else
    { verdict := st.succeeded, payment := st.root, graph := st.graph,
      trace := st.trace, reverted := none }

/-- Outcome of `send_mpp_payment`: the boolean verdict, the payment and graph
after the call, the scheduled events (time, event), the trace, and the
reverter invocation record. -/
structure MppOutcome (G : Type) where
  verdict : Bool
  payment : Payment
  graph : G
  events : List (Nat × PaymentEvent)
  trace : List TraceEv
  reverted : Option (List Credit)
deriving DecidableEq

/-- `Simulation::send_mpp_payment` (`mpp.rs` lines 17-62). Simulated time is a
bare `Nat` (`now`), the configured `SIM_DELAY_IN_SECS` is the parameter
`simDelay`, and the single `event_queue.schedule` call is returned in
`events`. The preflight checks query the balance on (a clone of) the entry
graph; on preflight failure the scheduler is never entered. -/
def send_mpp_payment (env : Env G) (maxParts simDelay : Nat) (g : G) (now : Nat)
    (payment : Payment) : MppOutcome G :=
  let total_out_balance := env.get_total_node_balance g payment.source
  let p1 : Payment × Bool :=
    if total_out_balance < payment.amount_msat then
      ({ payment with htlc_attempts := payment.htlc_attempts + 1 }, true)
    else (payment, false)
  let p2 : Payment × Bool :=
    if !p1.2 then
      if env.get_max_receive_amount g p1.1.dest < p1.1.amount_msat then
        ({ p1.1 with htlc_attempts := p1.1.htlc_attempts + 1 }, true)
      else p1
    else p1
  let run : Bool × Payment × G × List TraceEv × Option (List Credit) :=
    if !p2.2 then
      let r := send_mpp_shards env maxParts g { p2.1 with used_paths := [], num_parts := 0 }
      (r.verdict, r.payment, r.graph, r.trace, r.reverted)
    else (false, p2.1, g, [], none)
  let now2 := now + simDelay
  let ev :=
    if run.1 then PaymentEvent.updateSuccessful run.2.1
    else PaymentEvent.updateFailed run.2.1
  { verdict := run.1, payment := run.2.1, graph := run.2.2.1,
    events := [(now2, ev)], trace := run.2.2.2.1, reverted := run.2.2.2.2 }

/-! ### Trace measurements -/

/-- Number of split operations recorded in a trace. -/
def splitCount : List TraceEv → Nat
  | [] => 0
  | TraceEv.split _ _ :: t => splitCount t + 1
  | TraceEv.attempt _ _ _ _ :: t => splitCount t

/-- Number of individually successful shard attempts recorded in a trace. -/
def successCount : List TraceEv → Nat
  | [] => 0
  | TraceEv.attempt _ true _ _ :: t => successCount t + 1
  | _ :: t => successCount t

/-- Concatenation of the credit lists returned by the individually successful
shard attempts of a trace, in order. -/
def successCredits : List TraceEv → List Credit
  | [] => []
  | TraceEv.attempt _ true _ cs :: t => cs ++ successCredits t
  | TraceEv.attempt _ false _ _ :: t => successCredits t
  | TraceEv.split _ _ :: t => successCredits t

/-- Total number of attempts newly charged by the sends of a trace. -/
def sumNewly : List TraceEv → Nat
  | [] => 0
  | TraceEv.attempt _ _ n _ :: t => n + sumNewly t
  | TraceEv.split _ _ :: t => sumNewly t

/-! ### Spec-modelled ledger and collaborator contracts -/

/-- Modelled from the spec: the balance ledger collaborator, a per-channel
signed balance (the spec's "adjust a named channel's balance by a signed
amount"). -/
def Ledger : Type := String → Int

/-- Modelled from the spec: adjust a named channel's balance by a signed
amount. -/
def adjustChannel (g : Ledger) (ch : String) (delta : Int) : Ledger :=
  fun c => if c = ch then g c + delta else g c

/-- Modelled from the spec: the aggregate ledger effect of a list of
provisional credits, one balance adjustment per credit. -/
def applyCredits (g : Ledger) (cs : List Credit) : Ledger :=
  cs.foldl (fun g c => adjustChannel g c.2.1 (c.2.2 : Int)) g

/-- Modelled from the spec: the Reverter (`revert_payment`, outside `src/`)
issues exactly one compensating balance reversal per credit. -/
def revertCredits (g : Ledger) (cs : List Credit) : Ledger :=
  cs.foldl (fun g c => adjustChannel g c.2.1 (-(c.2.2 : Int))) g

/-- Modelled from the spec: contract of the out-of-src Single-Shard Sender —
"Every attempt, whether it succeeds or fails, increments the attempt
counter", so a successful send charges at least one attempt to its shard. -/
def SenderChargesSuccess (env : Env G) : Prop :=
  ∀ g p, (env.send_one_payment g p).success = true →
    1 ≤ (env.send_one_payment g p).shard.htlc_attempts

/-- Modelled from the spec: "The attempt counter is monotonically
non-decreasing" — a send never lowers its shard's attempt counter. -/
def SenderMonotone (env : Env G) : Prop :=
  ∀ g p, p.htlc_attempts ≤ (env.send_one_payment g p).shard.htlc_attempts

/-- Modelled from the spec: net ledger effect of the Single-Shard Sender — a
failed send leaves the ledger unchanged (its partial moves are undone
internally), while a successful send has applied exactly its returned
provisional credits. -/
def SenderNetEffect (env : Env Ledger) : Prop :=
  ∀ g p,
    (env.send_one_payment g p).graph =
      if (env.send_one_payment g p).success then
        applyCredits g (env.send_one_payment g p).to_reverse
      else g

/-! ### Loop unfolding and projection lemmas -/

theorem mppLoop_zero (env : Env G) (mp : Nat) (st : ShardState G) :
    mppLoop env mp 0 st = st := rfl

theorem mppLoop_succ (env : Env G) (mp n : Nat) (st : ShardState G) :
    mppLoop env mp (n + 1) st =
      match st.stack with
      | [] => st
      | current_shard :: rest =>
          mppLoop env mp n (shardIter env mp { st with stack := rest } current_shard) := rfl

theorem mppLoopEarly_zero (env : Env G) (mp : Nat) (st : ShardState G) :
    mppLoopEarly env mp 0 st = st := rfl

theorem mppLoopEarly_succ (env : Env G) (mp n : Nat) (st : ShardState G) :
    mppLoopEarly env mp (n + 1) st =
      if st.succeeded || st.failed then st
      else
        match st.stack with
        | [] => st
        | current_shard :: rest =>
            mppLoopEarly env mp n (shardIter env mp { st with stack := rest } current_shard) := rfl

theorem checkStep_graph (st : ShardState G) : (checkStep st).graph = st.graph := by
  unfold checkStep; split <;> rfl

theorem checkStep_trace (st : ShardState G) : (checkStep st).trace = st.trace := by
  unfold checkStep; split <;> rfl

theorem checkStep_stack (st : ShardState G) : (checkStep st).stack = st.stack := by
  unfold checkStep; split <;> rfl

theorem checkStep_num_parts (st : ShardState G) : (checkStep st).num_parts = st.num_parts := by
  unfold checkStep; split <;> rfl

theorem checkStep_failed (st : ShardState G) : (checkStep st).failed = st.failed := by
  unfold checkStep; split <;> rfl

theorem checkStep_root_htlc (st : ShardState G) :
    (checkStep st).root.htlc_attempts = st.root.htlc_attempts := by
  unfold checkStep; split <;> rfl

theorem checkStep_root_num_parts (st : ShardState G) :
    (checkStep st).root.num_parts = st.root.num_parts := by
  unfold checkStep; split <;> rfl

theorem checkStep_root_dest (st : ShardState G) : (checkStep st).root.dest = st.root.dest := by
  unfold checkStep; split <;> rfl

theorem checkStep_root_amount (st : ShardState G) :
    (checkStep st).root.amount_msat = st.root.amount_msat := by
  unfold checkStep; split <;> rfl

theorem checkStep_root_used_paths (st : ShardState G) :
    (checkStep st).root.used_paths = st.root.used_paths := by
  unfold checkStep; split <;> rfl

theorem checkStep_root_failed_amounts (st : ShardState G) :
    (checkStep st).root.failed_amounts = st.root.failed_amounts := by
  unfold checkStep; split <;> rfl

theorem checkStep_root_failed_paths (st : ShardState G) :
    (checkStep st).root.failed_paths = st.root.failed_paths := by
  unfold checkStep; split <;> rfl

theorem checkStep_succeeded_mono (st : ShardState G) (h : st.succeeded = true) :
    (checkStep st).succeeded = true := by
  unfold checkStep; split <;> first | rfl | exact h

theorem checkStep_of_eq (st : ShardState G)
    (h : creditSumAt st.root.successful_shards st.root.dest = st.root.amount_msat) :
    checkStep st =
      { st with
        succeeded := true
        root := { st.root with succeeded := true, successful_shards := [] } } := by
  unfold checkStep; rw [if_pos h]

theorem checkStep_of_ne (st : ShardState G)
    (h : ¬ creditSumAt st.root.successful_shards st.root.dest = st.root.amount_msat) :
    checkStep st = st := by
  unfold checkStep; rw [if_neg h]

theorem shardStep_succeeded (env : Env G) (mp : Nat) (st : ShardState G) (shard : Payment) :
    (shardStep env mp st shard).succeeded = st.succeeded := by
  simp only [shardStep]
  split
  · split
    · rfl
    · split <;> rfl
  · split <;> rfl

theorem shardStep_num_parts (env : Env G) (mp : Nat) (st : ShardState G) (shard : Payment) :
    (shardStep env mp st shard).num_parts = st.num_parts + 1 := by
  simp only [shardStep]
  split
  · split
    · rfl
    · split <;> rfl
  · split <;> rfl

theorem shardStep_graph (env : Env G) (mp : Nat) (st : ShardState G) (shard : Payment) :
    (shardStep env mp st shard).graph = (env.send_one_payment st.graph shard).graph := by
  simp only [shardStep]
  split
  · split
    · rfl
    · split <;> rfl
  · split <;> rfl

theorem shardStep_root_htlc (env : Env G) (mp : Nat) (st : ShardState G) (shard : Payment) :
    (shardStep env mp st shard).root.htlc_attempts =
      st.root.htlc_attempts + (env.send_one_payment st.graph shard).shard.htlc_attempts := by
  simp only [shardStep]
  split
  · split
    · rfl
    · split <;> rfl
  · split <;> rfl

theorem shardStep_root_dest (env : Env G) (mp : Nat) (st : ShardState G) (shard : Payment) :
    (shardStep env mp st shard).root.dest = st.root.dest := by
  simp only [shardStep]
  split
  · split
    · rfl
    · split <;> rfl
  · split <;> rfl

theorem shardStep_root_amount (env : Env G) (mp : Nat) (st : ShardState G) (shard : Payment) :
    (shardStep env mp st shard).root.amount_msat = st.root.amount_msat := by
  simp only [shardStep]
  split
  · split
    · rfl
    · split <;> rfl
  · split <;> rfl

/-! ### Generic loop invariants -/

/-- Any property of the state that ignores the stack and is preserved by one
loop iteration is preserved by the whole loop. -/
theorem mppLoop_inv (env : Env G) (mp : Nat) (P : ShardState G → Prop)
    (hblind : ∀ (st : ShardState G) s, P st → P { st with stack := s })
    (hiter : ∀ (st : ShardState G) shard, P st → P (shardIter env mp st shard)) :
    ∀ fuel (st : ShardState G), P st → P (mppLoop env mp fuel st) := by
  intro fuel
  induction fuel with
  | zero => intro st h; exact h
  | succ n ih =>
      intro st h
      rw [mppLoop_succ]
      cases hstack : st.stack with
      | nil => exact h
      | cons shard rest => exact ih _ (hiter _ _ (hblind st rest h))

/-- A property preserved by `checkStep` and by the guarded body is preserved
by one loop iteration. -/
theorem shardIter_inv (env : Env G) (mp : Nat) (P : ShardState G → Prop)
    (hcheck : ∀ st : ShardState G, P st → P (checkStep st))
    (hstep : ∀ (st : ShardState G) shard, st.succeeded = false → st.failed = false →
      P st → P (shardStep env mp st shard)) :
    ∀ (st : ShardState G) shard, P st → P (shardIter env mp st shard) := by
  intro st shard h
  unfold shardIter
  split
  · next hguard =>
      simp only [Bool.and_eq_true, Bool.not_eq_true'] at hguard
      exact hcheck _ (hstep _ _ hguard.1 hguard.2 h)
  · exact hcheck _ h

theorem mppLoop_succ_nil (env : Env G) (mp n : Nat) (st : ShardState G)
    (h : st.stack = []) : mppLoop env mp (n + 1) st = st := by
  rw [mppLoop_succ, h]

theorem mppLoop_succ_cons (env : Env G) (mp n : Nat) (st : ShardState G)
    (shard : Payment) (rest : List Payment) (h : st.stack = shard :: rest) :
    mppLoop env mp (n + 1) st =
      mppLoop env mp n (shardIter env mp { st with stack := rest } shard) := by
  rw [mppLoop_succ, h]

/-- Any property established by `checkStep` on every state holds after every
loop run that holds at its start: each loop iteration ends in a `checkStep`
image. -/
theorem mppLoop_post (env : Env G) (mp : Nat) (P : ShardState G → Prop)
    (hpost : ∀ st : ShardState G, P (checkStep st)) :
    ∀ fuel (st : ShardState G), P st → P (mppLoop env mp fuel st) := by
  intro fuel
  induction fuel with
  | zero => intro st h; exact h
  | succ n ih =>
      intro st h
      rw [mppLoop_succ]
      cases hstack : st.stack with
      | nil => exact h
      | cons shard rest => exact ih _ (hpost _)

/-! ### Trace measure lemmas -/

theorem splitCount_append (a b : List TraceEv) :
    splitCount (a ++ b) = splitCount a + splitCount b := by
  induction a with
  | nil => simp [splitCount]
  | cons e t ih =>
      cases e with
      | attempt amt s n cs => simp [splitCount, ih]
      | split x y => simp [splitCount, ih]; omega

theorem successCount_append (a b : List TraceEv) :
    successCount (a ++ b) = successCount a + successCount b := by
  induction a with
  | nil => simp [successCount]
  | cons e t ih =>
      cases e with
      | attempt amt s n cs =>
          cases s
          · simp [successCount, ih]
          · simp [successCount, ih]; omega
      | split x y => simp [successCount, ih]

theorem successCredits_append (a b : List TraceEv) :
    successCredits (a ++ b) = successCredits a ++ successCredits b := by
  induction a with
  | nil => simp [successCredits]
  | cons e t ih =>
      cases e with
      | attempt amt s n cs => cases s <;> simp [successCredits, ih]
      | split x y => simp [successCredits, ih]

theorem sumNewly_append (a b : List TraceEv) :
    sumNewly (a ++ b) = sumNewly a + sumNewly b := by
  induction a with
  | nil => simp [sumNewly]
  | cons e t ih =>
      cases e with
      | attempt amt s n cs => simp [sumNewly, ih]; omega
      | split x y => simp [sumNewly, ih]

/-! ### Ledger lemmas for the spec-modelled reverter -/

/-- Signed total credited on one channel by a list of credits. -/
def creditSumOn (cs : List Credit) (ch : String) : Int :=
  (cs.map (fun c => if c.2.1 = ch then (c.2.2 : Int) else 0)).sum

theorem creditSumOn_cons (c : Credit) (cs : List Credit) (ch : String) :
    creditSumOn (c :: cs) ch =
      (if c.2.1 = ch then (c.2.2 : Int) else 0) + creditSumOn cs ch := by
  simp [creditSumOn]

theorem applyCredits_apply (cs : List Credit) : ∀ (g : Ledger) (ch : String),
    applyCredits g cs ch = g ch + creditSumOn cs ch := by
  induction cs with
  | nil => intro g ch; simp [applyCredits, creditSumOn]
  | cons c t ih =>
      intro g ch
      show applyCredits (adjustChannel g c.2.1 (c.2.2 : Int)) t ch = _
      rw [ih, creditSumOn_cons]
      unfold adjustChannel
      by_cases h : ch = c.2.1
      · rw [if_pos h, if_pos h.symm]; ring
      · rw [if_neg h, if_neg (fun hc => h hc.symm)]; ring

theorem revertCredits_apply (cs : List Credit) : ∀ (g : Ledger) (ch : String),
    revertCredits g cs ch = g ch - creditSumOn cs ch := by
  induction cs with
  | nil => intro g ch; simp [revertCredits, creditSumOn]
  | cons c t ih =>
      intro g ch
      show revertCredits (adjustChannel g c.2.1 (-(c.2.2 : Int))) t ch = _
      rw [ih, creditSumOn_cons]
      unfold adjustChannel
      by_cases h : ch = c.2.1
      · rw [if_pos h, if_pos h.symm]; ring
      · rw [if_neg h, if_neg (fun hc => h hc.symm)]; ring

/-- Reverting exactly the credits that were applied restores the ledger. -/
theorem revertCredits_applyCredits (g : Ledger) (cs : List Credit) :
    revertCredits (applyCredits g cs) cs = g := by
  funext ch
  rw [revertCredits_apply, applyCredits_apply]
  ring

theorem applyCredits_append (g : Ledger) (cs ds : List Credit) :
    applyCredits g (cs ++ ds) = applyCredits (applyCredits g cs) ds := by
  unfold applyCredits
  rw [List.foldl_append]

/-! ### Outcome characterization helpers -/

/-- Preflight failure path of `send_mpp_payment` (`mpp.rs` lines 22-36):
one extra attempt, no scheduler, single failure event. -/
theorem send_mpp_payment_preflight {H : Type} (env : Env H) (mp d : Nat) (g : H)
    (now : Nat) (p : Payment)
    (h : env.get_total_node_balance g p.source < p.amount_msat ∨
      env.get_max_receive_amount g p.dest < p.amount_msat) :
    send_mpp_payment env mp d g now p =
      { verdict := false
        payment := { p with htlc_attempts := p.htlc_attempts + 1 }
        graph := g
        events := [(now + d,
          PaymentEvent.updateFailed { p with htlc_attempts := p.htlc_attempts + 1 })]
        trace := []
        reverted := none } := by
  by_cases h1 : env.get_total_node_balance g p.source < p.amount_msat
  · simp only [send_mpp_payment, if_pos h1, Bool.not_true, Bool.false_eq_true, if_false]
  · rcases h with h | h2
    · exact absurd h h1
    · simp only [send_mpp_payment, if_neg h1, Bool.not_false, if_true, if_pos h2,
        Bool.not_true, Bool.false_eq_true, if_false]

/-- Passed preflight: `send_mpp_payment` is the scheduler run on the payment
with cleared used paths and zeroed parts (`mpp.rs` lines 38-42), plus the
single terminal event. -/
theorem send_mpp_payment_enter {H : Type} (env : Env H) (mp d : Nat) (g : H)
    (now : Nat) (p : Payment)
    (h1 : ¬ env.get_total_node_balance g p.source < p.amount_msat)
    (h2 : ¬ env.get_max_receive_amount g p.dest < p.amount_msat) :
    send_mpp_payment env mp d g now p =
      { verdict := (send_mpp_shards env mp g { p with used_paths := [], num_parts := 0 }).verdict
        payment := (send_mpp_shards env mp g { p with used_paths := [], num_parts := 0 }).payment
        graph := (send_mpp_shards env mp g { p with used_paths := [], num_parts := 0 }).graph
        events := [(now + d,
          if (send_mpp_shards env mp g { p with used_paths := [], num_parts := 0 }).verdict then
            PaymentEvent.updateSuccessful
              (send_mpp_shards env mp g { p with used_paths := [], num_parts := 0 }).payment
          else
            PaymentEvent.updateFailed
              (send_mpp_shards env mp g { p with used_paths := [], num_parts := 0 }).payment)]
        trace := (send_mpp_shards env mp g { p with used_paths := [], num_parts := 0 }).trace
        reverted := (send_mpp_shards env mp g { p with used_paths := [], num_parts := 0 }).reverted } := by
  simp only [send_mpp_payment, if_neg h1, Bool.not_false, if_true, if_neg h2]

/-- Failure path of `send_mpp_shards` (`mpp.rs` lines 129-133): revert, clear
used paths. -/
theorem send_mpp_shards_of_failure (env : Env G) (mp : Nat) (g : G) (root : Payment)
    (h : (shardsRun env mp g root).succeeded = false) :
    send_mpp_shards env mp g root =
      { verdict := false
        payment := { (shardsRun env mp g root).root with used_paths := [] }
        graph := env.revert_payment (shardsRun env mp g root).graph
          (shardsRun env mp g root).root.successful_shards
        trace := (shardsRun env mp g root).trace
        reverted := some (shardsRun env mp g root).root.successful_shards } := by
  simp only [send_mpp_shards, h, Bool.not_false, if_true]

/-- Success path of `send_mpp_shards`: no reverter call, payment as the loop
left it. -/
theorem send_mpp_shards_of_success (env : Env G) (mp : Nat) (g : G) (root : Payment)
    (h : (shardsRun env mp g root).succeeded = true) :
    send_mpp_shards env mp g root =
      { verdict := true
        payment := (shardsRun env mp g root).root
        graph := (shardsRun env mp g root).graph
        trace := (shardsRun env mp g root).trace
        reverted := none } := by
  simp only [send_mpp_shards, h, Bool.not_true, Bool.false_eq_true, if_false]

/-! ### Loop invariants backing the claims -/

/-- Once the loop has declared success the credit ledger is empty: it is
cleared in the very iteration that sets the flag and never extended after. -/
theorem shardsRun_shards_empty_of_succeeded (env : Env G) (mp : Nat) (g : G)
    (root : Payment) (h : (shardsRun env mp g root).succeeded = true) :
    (shardsRun env mp g root).root.successful_shards = [] := by
  have key := mppLoop_inv env mp
    (fun st : ShardState G => st.succeeded = true → st.root.successful_shards = [])
    (fun st s h => h)
    (shardIter_inv env mp _
      (by
        intro st h
        unfold checkStep
        split
        · intro _; rfl
        · exact h)
      (by
        intro st shard hsucc hfail h
        intro hs
        rw [shardStep_succeeded] at hs
        rw [hsucc] at hs
        cases hs))
    (shardsFuel mp) (initState g root)
    (by intro hs; simp [initState] at hs)
  exact key h

/-- As long as the loop has not declared success, the root's credit ledger is
exactly the entry ledger followed by the credits of the individually
successful attempts, in order: nothing is ever removed before success. -/
theorem shardsRun_credits_of_not_succeeded (env : Env G) (mp : Nat) (g : G)
    (root : Payment) (h : (shardsRun env mp g root).succeeded = false) :
    (shardsRun env mp g root).root.successful_shards =
      root.successful_shards ++ successCredits (shardsRun env mp g root).trace := by
  have key := mppLoop_inv env mp
    (fun st : ShardState G => st.succeeded = false →
      st.root.successful_shards = root.successful_shards ++ successCredits st.trace)
    (fun st s h => h)
    (shardIter_inv env mp _
      (by
        intro st h
        unfold checkStep
        split
        · intro hs; cases hs
        · exact h)
      (by
        intro st shard hsucc hfail h
        have he := h hsucc
        simp only [shardStep]
        split
        · next hcond =>
            simp only [Bool.and_eq_true, Bool.not_eq_true'] at hcond
            split
            · intro _
              simpa [successCredits_append, successCredits, hcond.1] using he
            · split
              · intro _
                simpa [successCredits_append, successCredits, hcond.1] using he
              · intro _
                simpa [successCredits_append, successCredits, hcond.1] using he
        · next hcond =>
            split
            · next hsucc2 =>
                intro _
                simp only [successCredits_append, successCredits, hsucc2]
                rw [he]
                simp [List.append_assoc]
            · next hns =>
                exfalso
                simp only [Bool.not_eq_true] at hns
                exact hcond (by simp [hns, hfail])))
    (shardsFuel mp) (initState g root)
    (by intro _; simp [initState, successCredits])
  exact key h

/-- After `checkStep`, a state without the success flag has a destination
credit sum different from the requested amount. -/
theorem checkStep_post_sum (st : ShardState G) :
    (checkStep st).succeeded = false →
    creditSumAt (checkStep st).root.successful_shards (checkStep st).root.dest ≠
      (checkStep st).root.amount_msat := by
  unfold checkStep
  split
  · intro hs; cases hs
  · next hne => intro _; exact hne

/-- One unfolding of the loop as `send_mpp_shards` runs it: the stack starts
with the root clone, so the first iteration always executes. -/
theorem shardsRun_unfold_one (env : Env G) (mp : Nat) (g : G) (root : Payment) :
    shardsRun env mp g root =
      mppLoop env mp (2 * mp + 2)
        (shardIter env mp { initState g root with stack := [] } root) := by
  have h2 : shardsFuel mp = (2 * mp + 2) + 1 := by unfold shardsFuel; omega
  unfold shardsRun
  rw [h2]
  exact mppLoop_succ_cons env mp (2 * mp + 2) (initState g root) root [] rfl

/-- The success check runs at the end of every iteration, so if the loop ends
without the success flag, the destination credit sum differs from the
requested amount. -/
theorem shardsRun_sum_ne_of_not_succeeded (env : Env G) (mp : Nat) (g : G)
    (root : Payment) (h : (shardsRun env mp g root).succeeded = false) :
    creditSumAt (shardsRun env mp g root).root.successful_shards
        (shardsRun env mp g root).root.dest ≠
      (shardsRun env mp g root).root.amount_msat := by
  have hstart : ∀ (s : ShardState G) (sh : Payment),
      (shardIter env mp s sh).succeeded = false →
      creditSumAt (shardIter env mp s sh).root.successful_shards
          (shardIter env mp s sh).root.dest ≠ (shardIter env mp s sh).root.amount_msat := by
    intro s sh
    unfold shardIter
    exact checkStep_post_sum _
  rw [shardsRun_unfold_one] at h ⊢
  exact mppLoop_post env mp
    (fun st : ShardState G => st.succeeded = false →
      creditSumAt st.root.successful_shards st.root.dest ≠ st.root.amount_msat)
    checkStep_post_sum (2 * mp + 2) _ (hstart _ _) h

/-- The committed-shard count equals the number of individually successful
attempts, and — when every successful send charges at least one attempt —
the merged attempt counter dominates it. -/
theorem shardsRun_counts (env : Env G) (mp : Nat) (g : G) (root : Payment)
    (hchg : SenderChargesSuccess env) (hz : root.num_parts = 0) :
    (shardsRun env mp g root).root.num_parts =
        successCount (shardsRun env mp g root).trace ∧
      (shardsRun env mp g root).root.num_parts ≤
        (shardsRun env mp g root).root.htlc_attempts := by
  have key := mppLoop_inv env mp
    (fun st : ShardState G => st.root.num_parts = successCount st.trace ∧
      st.root.num_parts ≤ st.root.htlc_attempts)
    (fun st s h => h)
    (shardIter_inv env mp _
      (by
        intro st h
        unfold checkStep
        split
        · exact h
        · exact h)
      (by
        intro st shard hsucc hfail h
        simp only [shardStep]
        split
        · next hcond =>
            simp only [Bool.and_eq_true, Bool.not_eq_true'] at hcond
            split
            · refine ⟨?_, ?_⟩
              · simp [successCount_append, successCount, hcond.1, h.1]
              · have := h.2; simp only []; omega
            · split
              · refine ⟨?_, ?_⟩
                · simp [successCount_append, successCount, hcond.1, h.1]
                · have := h.2; simp only []; omega
              · refine ⟨?_, ?_⟩
                · simp [successCount_append, successCount, hcond.1, h.1]
                · have := h.2; simp only []; omega
        · next hcond =>
            split
            · next hsucc2 =>
                refine ⟨?_, ?_⟩
                · simp [successCount_append, successCount, hsucc2, h.1]
                · have h2 := h.2
                  have h3 := hchg st.graph shard hsucc2
                  simp only []
                  omega
            · next hns =>
                exfalso
                simp only [Bool.not_eq_true] at hns
                exact hcond (by simp [hns, hfail])))
    (shardsFuel mp) (initState g root)
    (by constructor <;> simp [initState, successCount, hz])
  exact key

/-- Ledger shape while success is undeclared: the graph is the entry ledger
with exactly the root's current provisional credits applied (requires the
spec-modelled net-effect contract of the single-shard sender and an entry
payment with no prior provisional credits). -/
theorem shardsRun_graph_of_not_succeeded (env : Env Ledger) (mp : Nat) (g : Ledger)
    (root : Payment) (hnet : SenderNetEffect env) (hroot : root.successful_shards = [])
    (h : (shardsRun env mp g root).succeeded = false) :
    (shardsRun env mp g root).graph =
      applyCredits g (shardsRun env mp g root).root.successful_shards := by
  have key := mppLoop_inv env mp
    (fun st : ShardState Ledger => st.succeeded = false →
      st.graph = applyCredits g st.root.successful_shards)
    (fun st s h => h)
    (shardIter_inv env mp _
      (by
        intro st h
        unfold checkStep
        split
        · intro hs; cases hs
        · exact h)
      (by
        intro st shard hsucc hfail h
        have he := h hsucc
        have hn := hnet st.graph shard
        simp only [shardStep]
        split
        · next hcond =>
            simp only [Bool.and_eq_true, Bool.not_eq_true'] at hcond
            rw [hcond.1] at hn
            rw [if_neg Bool.false_ne_true] at hn
            split
            · intro _; simp only []; rw [hn, he]
            · split
              · intro _; simp only []; rw [hn, he]
              · intro _; simp only []; rw [hn, he]
        · next hcond =>
            split
            · next hsucc2 =>
                intro _
                rw [hsucc2] at hn
                rw [if_pos rfl] at hn
                simp only []
                rw [hn, he, ← applyCredits_append]
            · next hns =>
                exfalso
                simp only [Bool.not_eq_true] at hns
                exact hcond (by simp [hns, hfail])))
    (shardsFuel mp) (initState g root)
    (by intro _; simp [initState, hroot, applyCredits])
  exact key h

/-- Per-step trace bookkeeping: the newly charged attempts recorded by one
step. -/
theorem shardStep_sumNewly (env : Env G) (mp : Nat) (st : ShardState G) (shard : Payment) :
    sumNewly (shardStep env mp st shard).trace =
      sumNewly st.trace +
        ((env.send_one_payment st.graph shard).shard.htlc_attempts -
          shard.htlc_attempts) := by
  simp only [shardStep]
  split
  · split
    · simp [sumNewly_append, sumNewly]
    · split
      · simp [sumNewly_append, sumNewly]
      · simp [sumNewly_append, sumNewly]
  · split
    · simp [sumNewly_append, sumNewly]
    · simp [sumNewly_append, sumNewly]

/-- Along any loop run, the attempt counter grows by at least the attempts
newly charged in the trace. -/
theorem mppLoop_htlc_ge_newly (env : Env G) (mp : Nat) :
    ∀ fuel (st : ShardState G),
      st.root.htlc_attempts + sumNewly (mppLoop env mp fuel st).trace ≤
        (mppLoop env mp fuel st).root.htlc_attempts + sumNewly st.trace := by
  intro fuel
  induction fuel with
  | zero => intro st; exact le_rfl
  | succ n ih =>
      intro st
      cases hstack : st.stack with
      | nil => rw [mppLoop_succ_nil env mp n st hstack]
      | cons shard rest =>
          rw [mppLoop_succ_cons env mp n st shard rest hstack]
          have hstep : st.root.htlc_attempts +
              sumNewly (shardIter env mp { st with stack := rest } shard).trace ≤
              (shardIter env mp { st with stack := rest } shard).root.htlc_attempts +
                sumNewly st.trace := by
            unfold shardIter
            split
            · simp only [checkStep_trace, checkStep_root_htlc, shardStep_sumNewly,
                shardStep_root_htlc]
              omega
            · simp only [checkStep_trace, checkStep_root_htlc]
              exact le_rfl
          have hih := ih (shardIter env mp { st with stack := rest } shard)
          omega

/-- Failed amounts are only ever appended to. -/
theorem shardsRun_failed_amounts (env : Env G) (mp : Nat) (g : G) (root : Payment) :
    ∃ t, (shardsRun env mp g root).root.failed_amounts = root.failed_amounts ++ t := by
  have key := mppLoop_inv env mp
    (fun st : ShardState G => ∃ t, st.root.failed_amounts = root.failed_amounts ++ t)
    (fun st s h => h)
    (shardIter_inv env mp _
      (by
        intro st h
        unfold checkStep
        split
        · exact h
        · exact h)
      (by
        intro st shard hsucc hfail h
        obtain ⟨t, ht⟩ := h
        simp only [shardStep]
        split
        · split
          · exact ⟨t ++ [(env.send_one_payment st.graph shard).shard.amount_msat],
              by simp [ht]⟩
          · split
            · exact ⟨t ++ [(env.send_one_payment st.graph shard).shard.amount_msat],
                by simp [ht]⟩
            · exact ⟨t ++ [(env.send_one_payment st.graph shard).shard.amount_msat],
                by simp [ht]⟩
        · split
          · exact ⟨t, by simp [ht]⟩
          · exact ⟨t, by simp [ht]⟩))
    (shardsFuel mp) (initState g root)
    ⟨[], by simp [initState]⟩
  exact key

/-- Failed paths are only ever appended to. -/
theorem shardsRun_failed_paths (env : Env G) (mp : Nat) (g : G) (root : Payment) :
    ∃ t, (shardsRun env mp g root).root.failed_paths = root.failed_paths ++ t := by
  have key := mppLoop_inv env mp
    (fun st : ShardState G => ∃ t, st.root.failed_paths = root.failed_paths ++ t)
    (fun st s h => h)
    (shardIter_inv env mp _
      (by
        intro st h
        unfold checkStep
        split
        · exact h
        · exact h)
      (by
        intro st shard hsucc hfail h
        obtain ⟨t, ht⟩ := h
        simp only [shardStep]
        split
        · split
          · exact ⟨t ++ (env.send_one_payment st.graph shard).shard.failed_paths,
              by simp [ht]⟩
          · split
            · exact ⟨t ++ (env.send_one_payment st.graph shard).shard.failed_paths,
                by simp [ht]⟩
            · exact ⟨t ++ (env.send_one_payment st.graph shard).shard.failed_paths,
                by simp [ht]⟩
        · split
          · exact ⟨t ++ (env.send_one_payment st.graph shard).shard.failed_paths,
              by simp [ht]⟩
          · exact ⟨t ++ (env.send_one_payment st.graph shard).shard.failed_paths,
              by simp [ht]⟩))
    (shardsFuel mp) (initState g root)
    ⟨[], by simp [initState]⟩
  exact key

/-- Re-entry double counting: the first processed work item is a clone of the
root carrying the root's own attempt counter, which is then merged back, so
(for a counter-monotone sender) the final counter dominates twice the entry
counter plus all newly charged attempts. -/
theorem shardsRun_htlc_reentry (env : Env G) (mp : Nat) (g : G) (root : Payment)
    (hmono : SenderMonotone env) :
    2 * root.htlc_attempts + sumNewly (shardsRun env mp g root).trace ≤
      (shardsRun env mp g root).root.htlc_attempts := by
  have hguard : (!({ initState g root with stack := ([] : List Payment) } :
      ShardState G).succeeded &&
      !({ initState g root with stack := ([] : List Payment) } : ShardState G).failed) = true := rfl
  have ht1 : (shardIter env mp { initState g root with stack := [] } root).root.htlc_attempts =
      root.htlc_attempts + (env.send_one_payment g root).shard.htlc_attempts := by
    unfold shardIter
    rw [if_pos hguard, checkStep_root_htlc, shardStep_root_htlc]
    rfl
  have hn1 : sumNewly (shardIter env mp { initState g root with stack := [] } root).trace =
      (env.send_one_payment g root).shard.htlc_attempts - root.htlc_attempts := by
    unfold shardIter
    rw [if_pos hguard, checkStep_trace, shardStep_sumNewly]
    show sumNewly [] + _ = _
    rw [sumNewly]
    rw [Nat.zero_add]
    rfl
  have hm := hmono g root
  have hloop := mppLoop_htlc_ge_newly env mp (2 * mp + 2)
    (shardIter env mp { initState g root with stack := [] } root)
  rw [shardsRun_unfold_one]
  omega

/-! ### Termination measure -/

/-- One processed shard never increases the termination measure: pending
stack size plus twice the remaining split budget. -/
theorem shardStep_measure (env : Env G) (mp : Nat) (st : ShardState G) (shard : Payment) :
    (shardStep env mp st shard).stack.length +
        2 * (mp + 1 - (shardStep env mp st shard).num_parts) ≤
      st.stack.length + 2 * (mp + 1 - st.num_parts) := by
  simp only [shardStep]
  split
  · split
    · simp only []
      omega
    · next hle =>
        split
        · simp only [List.length_cons]
          omega
        · simp only []
          omega
  · split
    · simp only []
      omega
    · simp only []
      omega

/-- With fuel at least the measure, the loop always drains its work list. -/
theorem mppLoop_drains (env : Env G) (mp : Nat) :
    ∀ fuel (st : ShardState G),
      st.stack.length + 2 * (mp + 1 - st.num_parts) ≤ fuel →
      (mppLoop env mp fuel st).stack = [] := by
  intro fuel
  induction fuel with
  | zero =>
      intro st h
      have hlen : st.stack.length = 0 := by omega
      rw [mppLoop_zero]
      exact List.length_eq_zero.mp hlen
  | succ n ih =>
      intro st h
      cases hstack : st.stack with
      | nil => rw [mppLoop_succ_nil env mp n st hstack]; exact hstack
      | cons shard rest =>
          rw [mppLoop_succ_cons env mp n st shard rest hstack]
          apply ih
          have hm : (shardIter env mp { st with stack := rest } shard).stack.length +
              2 * (mp + 1 - (shardIter env mp { st with stack := rest } shard).num_parts) ≤
              rest.length + 2 * (mp + 1 - st.num_parts) := by
            unfold shardIter
            split
            · rw [checkStep_stack, checkStep_num_parts]
              have hms := shardStep_measure env mp { st with stack := rest } shard
              simpa using hms
            · rw [checkStep_stack, checkStep_num_parts]
          have hlen : st.stack.length = rest.length + 1 := by rw [hstack]; rfl
          omega

/-- One processed shard never increases the split budget measure. -/
theorem shardStep_splitCount (env : Env G) (mp : Nat) (st : ShardState G) (shard : Payment) :
    splitCount (shardStep env mp st shard).trace +
        (mp - (shardStep env mp st shard).num_parts) ≤
      splitCount st.trace + (mp - st.num_parts) := by
  simp only [shardStep]
  split
  · split
    · simp only [splitCount_append, splitCount]
      omega
    · next hle =>
        split
        · simp only [splitCount_append, splitCount]
          omega
        · simp only [splitCount_append, splitCount]
          omega
  · split
    · simp only [splitCount_append, splitCount]
      omega
    · simp only [splitCount_append, splitCount]
      omega

/-- The number of split operations recorded by a loop run is bounded by the
remaining split budget. -/
theorem mppLoop_splitCount (env : Env G) (mp : Nat) :
    ∀ fuel (st : ShardState G),
      splitCount (mppLoop env mp fuel st).trace ≤
        splitCount st.trace + (mp - st.num_parts) := by
  intro fuel
  induction fuel with
  | zero => intro st; rw [mppLoop_zero]; exact Nat.le_add_right _ _
  | succ n ih =>
      intro st
      cases hstack : st.stack with
      | nil => rw [mppLoop_succ_nil env mp n st hstack]; exact Nat.le_add_right _ _
      | cons shard rest =>
          rw [mppLoop_succ_cons env mp n st shard rest hstack]
          have hih := ih (shardIter env mp { st with stack := rest } shard)
          have hstep : splitCount (shardIter env mp { st with stack := rest } shard).trace +
              (mp - (shardIter env mp { st with stack := rest } shard).num_parts) ≤
              splitCount st.trace + (mp - st.num_parts) := by
            unfold shardIter
            split
            · rw [checkStep_trace, checkStep_num_parts]
              have hss := shardStep_splitCount env mp { st with stack := rest } shard
              simpa using hss
            · rw [checkStep_trace, checkStep_num_parts]
          omega

/-- Case split for a true boolean disjunction. -/
theorem bool_or_elim {a b : Bool} (h : (a || b) = true) : a = true ∨ b = true := by
  cases a
  · right; simpa using h
  · left; rfl

/-! ### Drain versus early exit -/

/-- The observable part of a loop state: everything except the pending
stack. -/
def obs (st : ShardState G) : Payment × Nat × Bool × Bool × G × List TraceEv :=
  (st.root, st.num_parts, st.succeeded, st.failed, st.graph, st.trace)

/-- `checkStep` commutes with replacing the stack. -/
theorem checkStep_stack_set (st : ShardState G) (s : List Payment) :
    checkStep { st with stack := s } = { checkStep st with stack := s } := by
  unfold checkStep
  by_cases h : creditSumAt st.root.successful_shards st.root.dest = st.root.amount_msat
  · rw [if_pos h, if_pos h]
  · rw [if_neg h, if_neg h]

/-- The success check is idempotent. -/
theorem checkStep_idem (st : ShardState G) : checkStep (checkStep st) = checkStep st := by
  by_cases h : creditSumAt st.root.successful_shards st.root.dest = st.root.amount_msat
  · rw [checkStep_of_eq st h]
    unfold checkStep
    split
    · rfl
    · rfl
  · rw [checkStep_of_ne st h, checkStep_of_ne st h]

/-- Draining the stack after a verdict on a check-stable state leaves the
observable state untouched. -/
theorem mppLoop_drain_obs (env : Env G) (mp : Nat) :
    ∀ fuel (st : ShardState G), (st.succeeded || st.failed) = true →
      checkStep st = st → obs (mppLoop env mp fuel st) = obs st := by
  intro fuel
  induction fuel with
  | zero => intro st _ _; rfl
  | succ n ih =>
      intro st hv hfix
      cases hstack : st.stack with
      | nil => rw [mppLoop_succ_nil env mp n st hstack]
      | cons shard rest =>
          rw [mppLoop_succ_cons env mp n st shard rest hstack]
          have hguard : (!st.succeeded && !st.failed) = false := by
            rcases bool_or_elim hv with h | h <;> simp [h]
          have hiter : shardIter env mp { st with stack := rest } shard =
              { st with stack := rest } := by
            unfold shardIter
            rw [if_neg (by simp [hguard])]
            rw [checkStep_stack_set, hfix]
          rw [hiter]
          have hfix2 : checkStep { st with stack := rest } = { st with stack := rest } := by
            rw [checkStep_stack_set, hfix]
          exact ih { st with stack := rest } hv hfix2

/-- The drained loop and the early-exit loop agree on the observable state,
for any start state that is check-stable whenever it carries a verdict. -/
theorem mppLoop_early_obs (env : Env G) (mp : Nat) :
    ∀ fuel (st : ShardState G),
      ((st.succeeded || st.failed) = true → checkStep st = st) →
      obs (mppLoop env mp fuel st) = obs (mppLoopEarly env mp fuel st) := by
  intro fuel
  induction fuel with
  | zero => intro st _; rfl
  | succ n ih =>
      intro st hstable
      by_cases hv : (st.succeeded || st.failed) = true
      · rw [mppLoopEarly_succ, if_pos hv]
        exact mppLoop_drain_obs env mp (n + 1) st hv (hstable hv)
      · rw [mppLoopEarly_succ, if_neg hv]
        cases hstack : st.stack with
        | nil => rw [mppLoop_succ_nil env mp n st hstack]
        | cons shard rest =>
            rw [mppLoop_succ_cons env mp n st shard rest hstack]
            exact ih _ (fun _ => checkStep_idem _)

/-- After a verdict the drained loop records nothing further in the trace. -/
theorem mppLoop_trace_after_verdict (env : Env G) (mp : Nat) :
    ∀ fuel (st : ShardState G), (st.succeeded || st.failed) = true →
      (mppLoop env mp fuel st).trace = st.trace := by
  intro fuel
  induction fuel with
  | zero => intro st _; rfl
  | succ n ih =>
      intro st hv
      cases hstack : st.stack with
      | nil => rw [mppLoop_succ_nil env mp n st hstack]
      | cons shard rest =>
          rw [mppLoop_succ_cons env mp n st shard rest hstack]
          have hguard : (!st.succeeded && !st.failed) = false := by
            rcases bool_or_elim hv with h | h <;> simp [h]
          have htr : (shardIter env mp { st with stack := rest } shard).trace = st.trace := by
            unfold shardIter
            rw [if_neg (by simp [hguard])]
            rw [checkStep_trace]
          have hv2 : ((shardIter env mp { st with stack := rest } shard).succeeded ||
              (shardIter env mp { st with stack := rest } shard).failed) = true := by
            unfold shardIter
            rw [if_neg (by simp [hguard])]
            rw [checkStep_failed]
            rcases bool_or_elim hv with h | h
            · have h2 : ({ st with stack := rest } : ShardState G).succeeded = true := h
              rw [checkStep_succeeded_mono _ h2, Bool.true_or]
            · have h2 : ({ st with stack := rest } : ShardState G).failed = true := h
              rw [h2, Bool.or_true]
          rw [ih _ hv2, htr]

/-- After a verdict the early-exit loop stops at once. -/
theorem mppLoopEarly_after_verdict (env : Env G) (mp : Nat) (fuel : Nat)
    (st : ShardState G) (hv : (st.succeeded || st.failed) = true) :
    mppLoopEarly env mp fuel st = st := by
  cases fuel with
  | zero => rfl
  | succ n => rw [mppLoopEarly_succ, if_pos hv]

/-- `send_mpp_shards` with the source's drain loop equals the early-exit
variant: the drained iterations are observably no-ops. -/
theorem send_mpp_shards_drain_equiv (env : Env G) (mp : Nat) (g : G) (root : Payment) :
    send_mpp_shards env mp g root = send_mpp_shards_early env mp g root := by
  have hobs := mppLoop_early_obs env mp (shardsFuel mp) (initState g root)
    (by intro hv; simp [initState] at hv)
  have hroot : (mppLoop env mp (shardsFuel mp) (initState g root)).root =
      (mppLoopEarly env mp (shardsFuel mp) (initState g root)).root :=
    congrArg (fun x => x.1) hobs
  have hsucc : (mppLoop env mp (shardsFuel mp) (initState g root)).succeeded =
      (mppLoopEarly env mp (shardsFuel mp) (initState g root)).succeeded :=
    congrArg (fun x => x.2.2.1) hobs
  have hgraph : (mppLoop env mp (shardsFuel mp) (initState g root)).graph =
      (mppLoopEarly env mp (shardsFuel mp) (initState g root)).graph :=
    congrArg (fun x => x.2.2.2.2.1) hobs
  have htrace : (mppLoop env mp (shardsFuel mp) (initState g root)).trace =
      (mppLoopEarly env mp (shardsFuel mp) (initState g root)).trace :=
    congrArg (fun x => x.2.2.2.2.2) hobs
  simp only [send_mpp_shards, send_mpp_shards_early, shardsRun]
  rw [hroot, hsucc, hgraph, htrace]

/-! ### Claim C6: single terminal event -/

/-- C6. Every call to `send_mpp_payment` schedules exactly one outcome event,
at the current simulated time plus the configured delay; the event is the
success event carrying the final payment snapshot precisely when the
returned verdict is `true`, and the failure event carrying the snapshot
otherwise. -/
theorem single_terminal_event {G : Type} (env : Env G) (mp d : Nat) (g : G)
    (now : Nat) (p : Payment) :
    (send_mpp_payment env mp d g now p).events =
      [(now + d,
        if (send_mpp_payment env mp d g now p).verdict then
          PaymentEvent.updateSuccessful (send_mpp_payment env mp d g now p).payment
        else
          PaymentEvent.updateFailed (send_mpp_payment env mp d g now p).payment)] := rfl

/-! ### Claim C8: determinism -/

/-- C8. Re-running the engine on an equal payment, from an identical balance
ledger and with identical collaborator (routing) responses, produces the
identical outcome: the same verdict, the same final payment, the same final
ledger, the same scheduled event, and the identical trace of shard attempts
and splits (the scheduler processes shards in a fixed depth-first order, so
the whole run is a function of its inputs). -/
theorem determinism_same_inputs {G : Type} (env : Env G) (mp d : Nat)
    (g g' : G) (now : Nat) (p p' : Payment) (hg : g = g') (hp : p = p') :
    send_mpp_payment env mp d g now p = send_mpp_payment env mp d g' now p' := by
  subst hg; subst hp; rfl

/-! ### Claim C4: preflight short-circuit -/

/-- C4. If the source's total outbound balance is below the requested amount,
or the destination's maximum receivable amount is, then `send_mpp_payment`
increments the attempt counter by exactly one (once, even when both
conditions hold), never enters the shard scheduler (graph untouched, empty
trace, no reverter call), and returns `false` with the single failure event;
the payment is unchanged except for the attempt counter, so a payment with
an empty used-route list keeps it empty. -/
theorem preflight_short_circuit {G : Type} (env : Env G) (mp d : Nat) (g : G)
    (now : Nat) (p : Payment)
    (h : env.get_total_node_balance g p.source < p.amount_msat ∨
      env.get_max_receive_amount g p.dest < p.amount_msat) :
    send_mpp_payment env mp d g now p =
      { verdict := false
        payment := { p with htlc_attempts := p.htlc_attempts + 1 }
        graph := g
        events := [(now + d,
          PaymentEvent.updateFailed { p with htlc_attempts := p.htlc_attempts + 1 })]
        trace := []
        reverted := none } :=
  send_mpp_payment_preflight env mp d g now p h

/-- The verdict of `send_mpp_shards` is the loop's success flag. -/
theorem send_mpp_shards_verdict_eq (env : Env G) (mp : Nat) (g : G) (root : Payment) :
    (send_mpp_shards env mp g root).verdict = (shardsRun env mp g root).succeeded := by
  simp only [send_mpp_shards]
  split
  · rfl
  · rfl

/-! ### Claim C1 (amended): conservation with clearing on success -/

/-- C1, amended. For a payment constructed with an empty credit ledger: when
`send_mpp_payment` returns `true`, the credit ledger of the returned payment
is empty — the destination credit sum reached the requested amount at the
moment success was declared, whereupon the engine clears the ledger; when it
returns `false`, the destination credit sum of the returned payment differs
from the requested amount. (The claim's literal iff fails on the success
side, see the counterexample: the code clears `successful_shards` exactly
when it declares success.) -/
theorem conservation_amended {H : Type} (env : Env H) (mp d : Nat) (g : H)
    (now : Nat) (p : Payment) (hempty : p.successful_shards = []) :
    ((send_mpp_payment env mp d g now p).verdict = true →
      (send_mpp_payment env mp d g now p).payment.successful_shards = []) ∧
    ((send_mpp_payment env mp d g now p).verdict = false →
      creditSumAt (send_mpp_payment env mp d g now p).payment.successful_shards
          (send_mpp_payment env mp d g now p).payment.dest ≠
        (send_mpp_payment env mp d g now p).payment.amount_msat) := by
  by_cases h1 : env.get_total_node_balance g p.source < p.amount_msat
  · rw [send_mpp_payment_preflight env mp d g now p (Or.inl h1)]
    constructor
    · intro hv; exact absurd hv (by simp)
    · intro _
      show creditSumAt p.successful_shards p.dest ≠ p.amount_msat
      rw [hempty]
      have hz : creditSumAt [] p.dest = 0 := rfl
      omega
  · by_cases h2 : env.get_max_receive_amount g p.dest < p.amount_msat
    · rw [send_mpp_payment_preflight env mp d g now p (Or.inr h2)]
      constructor
      · intro hv; exact absurd hv (by simp)
      · intro _
        show creditSumAt p.successful_shards p.dest ≠ p.amount_msat
        rw [hempty]
        have hz : creditSumAt [] p.dest = 0 := rfl
        omega
    · rw [send_mpp_payment_enter env mp d g now p h1 h2]
      by_cases hs : (shardsRun env mp g { p with used_paths := [], num_parts := 0 }).succeeded = true
      · rw [send_mpp_shards_of_success env mp g _ hs]
        constructor
        · intro _
          exact shardsRun_shards_empty_of_succeeded env mp g _ hs
        · intro hv; exact absurd hv (by simp)
      · have hs2 : (shardsRun env mp g { p with used_paths := [], num_parts := 0 }).succeeded =
            false := by
          revert hs
          cases (shardsRun env mp g { p with used_paths := [], num_parts := 0 }).succeeded
          · intro _; rfl
          · intro hs; exact absurd rfl hs
        rw [send_mpp_shards_of_failure env mp g _ hs2]
        constructor
        · intro hv; exact absurd hv (by simp)
        · intro _
          exact shardsRun_sum_ne_of_not_succeeded env mp g _ hs2

/-! ### Claim C9: credit ledger retention -/

/-- C9. When `send_mpp_payment` returns `false`, the returned payment's
provisional-credit list still holds every credit recorded by the
individually successful shard attempts (appended in order to whatever the
payment carried on entry): on failure the credits are reversed only in the
balance ledger, never removed from the list. When it returns `true`, the
list is empty. -/
theorem credit_retention {H : Type} (env : Env H) (mp d : Nat) (g : H)
    (now : Nat) (p : Payment) :
    ((send_mpp_payment env mp d g now p).verdict = true →
      (send_mpp_payment env mp d g now p).payment.successful_shards = []) ∧
    ((send_mpp_payment env mp d g now p).verdict = false →
      (send_mpp_payment env mp d g now p).payment.successful_shards =
        p.successful_shards ++ successCredits (send_mpp_payment env mp d g now p).trace) := by
  by_cases h1 : env.get_total_node_balance g p.source < p.amount_msat
  · rw [send_mpp_payment_preflight env mp d g now p (Or.inl h1)]
    constructor
    · intro hv; exact absurd hv (by simp)
    · intro _
      show p.successful_shards = p.successful_shards ++ successCredits []
      simp [successCredits]
  · by_cases h2 : env.get_max_receive_amount g p.dest < p.amount_msat
    · rw [send_mpp_payment_preflight env mp d g now p (Or.inr h2)]
      constructor
      · intro hv; exact absurd hv (by simp)
      · intro _
        show p.successful_shards = p.successful_shards ++ successCredits []
        simp [successCredits]
    · rw [send_mpp_payment_enter env mp d g now p h1 h2]
      by_cases hs : (shardsRun env mp g { p with used_paths := [], num_parts := 0 }).succeeded = true
      · rw [send_mpp_shards_of_success env mp g _ hs]
        constructor
        · intro _
          exact shardsRun_shards_empty_of_succeeded env mp g _ hs
        · intro hv; exact absurd hv (by simp)
      · have hs2 : (shardsRun env mp g { p with used_paths := [], num_parts := 0 }).succeeded =
            false := by
          revert hs
          cases (shardsRun env mp g { p with used_paths := [], num_parts := 0 }).succeeded
          · intro _; rfl
          · intro hs; exact absurd rfl hs
        rw [send_mpp_shards_of_failure env mp g _ hs2]
        constructor
        · intro hv; exact absurd hv (by simp)
        · intro _
          exact shardsRun_credits_of_not_succeeded env mp g _ hs2

/-! ### Claim C5: attempt monotonicity -/

/-- C5. For a payment entering with zero attempt counter and zero
committed-shard count (and a single-shard sender that charges at least one
attempt to every successful send — spec-modelled contract of the out-of-src
collaborator): after `send_mpp_payment` returns, the committed-shard count
equals the number of individually successful shard attempts, and the final
attempt counter is at least the final committed-shard count. -/
theorem attempt_monotonicity {H : Type} (env : Env H) (mp d : Nat) (g : H)
    (now : Nat) (p : Payment) (hchg : SenderChargesSuccess env)
    (hhtlc : p.htlc_attempts = 0) (hnp : p.num_parts = 0) :
    (send_mpp_payment env mp d g now p).payment.num_parts =
        successCount (send_mpp_payment env mp d g now p).trace ∧
      (send_mpp_payment env mp d g now p).payment.num_parts ≤
        (send_mpp_payment env mp d g now p).payment.htlc_attempts := by
  by_cases h1 : env.get_total_node_balance g p.source < p.amount_msat
  · rw [send_mpp_payment_preflight env mp d g now p (Or.inl h1)]
    constructor
    · show p.num_parts = successCount []
      rw [hnp]; rfl
    · show p.num_parts ≤ p.htlc_attempts + 1
      omega
  · by_cases h2 : env.get_max_receive_amount g p.dest < p.amount_msat
    · rw [send_mpp_payment_preflight env mp d g now p (Or.inr h2)]
      constructor
      · show p.num_parts = successCount []
        rw [hnp]; rfl
      · show p.num_parts ≤ p.htlc_attempts + 1
        omega
    · rw [send_mpp_payment_enter env mp d g now p h1 h2]
      by_cases hs : (shardsRun env mp g { p with used_paths := [], num_parts := 0 }).succeeded = true
      · rw [send_mpp_shards_of_success env mp g _ hs]
        exact shardsRun_counts env mp g _ hchg rfl
      · have hs2 : (shardsRun env mp g { p with used_paths := [], num_parts := 0 }).succeeded =
            false := by
          revert hs
          cases (shardsRun env mp g { p with used_paths := [], num_parts := 0 }).succeeded
          · intro _; rfl
          · intro hs; exact absurd rfl hs
        rw [send_mpp_shards_of_failure env mp g _ hs2]
        exact shardsRun_counts env mp g _ hchg rfl

/-! ### Claim C2 (amended): atomicity on failure -/

/-- C2, amended. For a payment that starts with empty ledgers, against a
single-shard sender with the spec-modelled net-effect contract and the
spec-modelled reverter: whenever `send_mpp_payment` returns `false`, the
used-route list is empty and the balance ledger equals its pre-attempt state
on every channel; moreover, whenever the shard scheduler was actually
entered (preflight passed), the reverter was invoked exactly once, over
precisely the credit list retained in the returned payment. (The claim's
unconditional "invoked exactly once" fails on the preflight-failure path,
where the reverter is not invoked at all — see the counterexample.) -/
theorem atomicity_amended (env : Env Ledger) (mp d : Nat) (g : Ledger) (now : Nat)
    (p : Payment) (hnet : SenderNetEffect env) (hrev : env.revert_payment = revertCredits)
    (hshards : p.successful_shards = []) (hused : p.used_paths = [])
    (hfalse : (send_mpp_payment env mp d g now p).verdict = false) :
    (send_mpp_payment env mp d g now p).payment.used_paths = [] ∧
    (send_mpp_payment env mp d g now p).graph = g ∧
    (¬ env.get_total_node_balance g p.source < p.amount_msat →
      ¬ env.get_max_receive_amount g p.dest < p.amount_msat →
      (send_mpp_payment env mp d g now p).reverted =
        some (send_mpp_payment env mp d g now p).payment.successful_shards) := by
  by_cases h1 : env.get_total_node_balance g p.source < p.amount_msat
  · rw [send_mpp_payment_preflight env mp d g now p (Or.inl h1)]
    refine ⟨hused, rfl, ?_⟩
    intro h1' _
    exact absurd h1 h1'
  · by_cases h2 : env.get_max_receive_amount g p.dest < p.amount_msat
    · rw [send_mpp_payment_preflight env mp d g now p (Or.inr h2)]
      refine ⟨hused, rfl, ?_⟩
      intro _ h2'
      exact absurd h2 h2'
    · rw [send_mpp_payment_enter env mp d g now p h1 h2] at hfalse ⊢
      have hs2 : (shardsRun env mp g { p with used_paths := [], num_parts := 0 }).succeeded =
          false := by
        have hv := send_mpp_shards_verdict_eq env mp g
          { p with used_paths := [], num_parts := 0 }
        have hfalse2 : (send_mpp_shards env mp g
            { p with used_paths := [], num_parts := 0 }).verdict = false := hfalse
        rw [hv] at hfalse2
        exact hfalse2
      rw [send_mpp_shards_of_failure env mp g _ hs2]
      refine ⟨rfl, ?_, fun _ _ => rfl⟩
      show env.revert_payment (shardsRun env mp g { p with used_paths := [], num_parts := 0 }).graph
        (shardsRun env mp g { p with used_paths := [], num_parts := 0 }).root.successful_shards = g
      rw [hrev]
      rw [shardsRun_graph_of_not_succeeded env mp g
        { p with used_paths := [], num_parts := 0 } hnet hshards hs2]
      exact revertCredits_applyCredits g _

/-! ### Claim C3: termination and split bound -/

/-- C3. For every input — any collaborator behaviour included, in particular
one where every shard attempt fails — the scheduler's work-list loop drains
its stack within the `shardsFuel` bound, and the number of split operations
performed is at most the configured maximum-parts value: once the count of
processed shards exceeds it on a failed shard, total failure is declared and
no further split happens. -/
theorem termination_split_bound {H : Type} (env : Env H) (mp : Nat) (g : H)
    (root : Payment) :
    (shardsRun env mp g root).stack = [] ∧
      splitCount (shardsRun env mp g root).trace ≤ mp := by
  constructor
  · show (mppLoop env mp (shardsFuel mp) (initState g root)).stack = []
    apply mppLoop_drains
    have e1 : (initState g root : ShardState H).stack.length = 1 := rfl
    have e2 : (initState g root : ShardState H).num_parts = 0 := rfl
    have e3 : shardsFuel mp = 2 * mp + 3 := rfl
    omega
  · have h := mppLoop_splitCount env mp (shardsFuel mp) (initState g root)
    have e1 : splitCount (initState g root : ShardState H).trace = 0 := rfl
    have e2 : (initState g root : ShardState H).num_parts = 0 := rfl
    show splitCount (mppLoop env mp (shardsFuel mp) (initState g root)).trace ≤ mp
    omega

/-! ### Claim C7: drain versus early exit equivalence -/

/-- C7. The source's loop, which keeps popping remaining shards without
acting once a verdict is fixed, is behaviourally equivalent to the variant
that exits immediately at the verdict: for every input both produce the same
`send_mpp_shards` result (same final payment, same ledger, same verdict,
same reverter call, same trace); and in neither variant is any routing
attempt or split recorded after the verdict is fixed (the trace is left
untouched from a verdict-carrying state on). -/
theorem drain_early_exit_equiv :
    (∀ (H : Type) (env : Env H) (mp : Nat) (g : H) (root : Payment),
        send_mpp_shards env mp g root = send_mpp_shards_early env mp g root) ∧
    (∀ (H : Type) (env : Env H) (mp fuel : Nat) (st : ShardState H),
        (st.succeeded || st.failed) = true →
        (mppLoop env mp fuel st).trace = st.trace ∧
          (mppLoopEarly env mp fuel st).trace = st.trace) := by
  constructor
  · intro H env mp g root
    exact send_mpp_shards_drain_equiv env mp g root
  · intro H env mp fuel st hv
    refine ⟨mppLoop_trace_after_verdict env mp fuel st hv, ?_⟩
    rw [mppLoopEarly_after_verdict env mp fuel st hv]

/-! ### Claim C10: partial reset and double counting on re-entry -/

/-- C10. `send_mpp_payment` clears the used-route list and zeroes the
committed-shard count before scheduling, but resets neither the attempt
counter nor the failed-route and failed-amount lists: for a payment entering
with a positive attempt counter that passes preflight (and a spec-modelled
counter-monotone single-shard sender), the initial work item is a clone of
the root still carrying the entry counter, so merging it back makes the
final attempt counter at least twice the entry counter plus all newly
charged attempts; the failed-amount and failed-path lists are extended, not
replaced. -/
theorem reentry_double_count {H : Type} (env : Env H) (mp d : Nat) (g : H)
    (now : Nat) (p : Payment) (hmono : SenderMonotone env)
    (_hpos : 0 < p.htlc_attempts)
    (h1 : ¬ env.get_total_node_balance g p.source < p.amount_msat)
    (h2 : ¬ env.get_max_receive_amount g p.dest < p.amount_msat) :
    2 * p.htlc_attempts + sumNewly (send_mpp_payment env mp d g now p).trace ≤
        (send_mpp_payment env mp d g now p).payment.htlc_attempts ∧
      (∃ t, (send_mpp_payment env mp d g now p).payment.failed_amounts =
        p.failed_amounts ++ t) ∧
      (∃ t, (send_mpp_payment env mp d g now p).payment.failed_paths =
        p.failed_paths ++ t) := by
  rw [send_mpp_payment_enter env mp d g now p h1 h2]
  by_cases hs : (shardsRun env mp g { p with used_paths := [], num_parts := 0 }).succeeded = true
  · rw [send_mpp_shards_of_success env mp g _ hs]
    refine ⟨?_, ?_, ?_⟩
    · exact shardsRun_htlc_reentry env mp g
        { p with used_paths := [], num_parts := 0 } hmono
    · obtain ⟨t, ht⟩ := shardsRun_failed_amounts env mp g
        { p with used_paths := [], num_parts := 0 }
      exact ⟨t, ht⟩
    · obtain ⟨t, ht⟩ := shardsRun_failed_paths env mp g
        { p with used_paths := [], num_parts := 0 }
      exact ⟨t, ht⟩
  · have hs2 : (shardsRun env mp g { p with used_paths := [], num_parts := 0 }).succeeded =
        false := by
      revert hs
      cases (shardsRun env mp g { p with used_paths := [], num_parts := 0 }).succeeded
      · intro _; rfl
      · intro hs; exact absurd rfl hs
    rw [send_mpp_shards_of_failure env mp g _ hs2]
    refine ⟨?_, ?_, ?_⟩
    · exact shardsRun_htlc_reentry env mp g
        { p with used_paths := [], num_parts := 0 } hmono
    · obtain ⟨t, ht⟩ := shardsRun_failed_amounts env mp g
        { p with used_paths := [], num_parts := 0 }
      exact ⟨t, ht⟩
    · obtain ⟨t, ht⟩ := shardsRun_failed_paths env mp g
        { p with used_paths := [], num_parts := 0 }
      exact ⟨t, ht⟩

/-! ### Concrete collaborator instances, counterexamples and witnesses -/

/-- A payment with empty ledgers, amount 5 msat, as a concrete test input. -/
def pEx : Payment where
  payment_id := 0
  source := "a"
  dest := "b"
  amount_msat := 5
  succeeded := false
  min_shard_amt := 1
  htlc_attempts := 0
  num_parts := 0
  used_paths := []
  failed_amounts := []
  successful_shards := []
  failed_paths := []

/-- The same payment entering with a positive attempt counter. -/
def pH : Payment := { pEx with htlc_attempts := 2 }

/-- A collaborator instance where every shard send succeeds, crediting the
full shard amount at the destination. -/
def envAllSucceed : Env Unit where
  get_total_node_balance := fun _ _ => 1000
  get_max_receive_amount := fun _ _ => 1000
  send_one_payment := fun g p =>
    { success := true
      to_reverse := [(p.dest, "ch", p.amount_msat)]
      shard := { p with htlc_attempts := p.htlc_attempts + 1 }
      graph := g }
  split_payment := fun _ => none
  revert_payment := fun g _ => g

/-- A collaborator instance with zero balances everywhere: preflight always
fails. -/
def envNoBalance : Env Unit where
  get_total_node_balance := fun _ _ => 0
  get_max_receive_amount := fun _ _ => 0
  send_one_payment := fun g p => { success := false, to_reverse := [], shard := p, graph := g }
  split_payment := fun _ => none
  revert_payment := fun g _ => g

/-- The all-zero ledger. -/
def gZero : Ledger := fun _ => 0

/-- A ledger-typed collaborator instance whose sends always fail leaving the
ledger untouched, with the spec-modelled reverter. -/
def envLedgerFail : Env Ledger where
  get_total_node_balance := fun _ _ => 1000
  get_max_receive_amount := fun _ _ => 1000
  send_one_payment := fun g p =>
    { success := false
      to_reverse := []
      shard := { p with htlc_attempts := p.htlc_attempts + 1 }
      graph := g }
  split_payment := fun _ => none
  revert_payment := revertCredits

/-- A collaborator instance where exactly the 2 msat shards succeed and
amounts are halved on split: on `pEx` (5 msat, max parts 3) one shard
succeeds before the max-parts abort, so the run fails with one retained
provisional credit. -/
def envPartial : Env Unit where
  get_total_node_balance := fun _ _ => 1000
  get_max_receive_amount := fun _ _ => 1000
  send_one_payment := fun g p =>
    if p.amount_msat = 2 then
      { success := true
        to_reverse := [(p.dest, "ch", p.amount_msat)]
        shard := { p with htlc_attempts := p.htlc_attempts + 1 }
        graph := g }
    else
      { success := false
        to_reverse := []
        shard := { p with htlc_attempts := p.htlc_attempts + 1 }
        graph := g }
  split_payment := fun p =>
    if 2 ≤ p.amount_msat then
      some ({ p with amount_msat := p.amount_msat / 2 },
        { p with amount_msat := p.amount_msat - p.amount_msat / 2 })
    else none
  revert_payment := fun g _ => g

/-- A loop state that already carries a success verdict. -/
def stDone : ShardState Unit where
  root := pEx
  stack := [pEx]
  num_parts := 0
  succeeded := true
  failed := false
  graph := ()
  trace := []

/-- C1, counterexample to the claim as stated: a payment that completes
successfully (verdict `true`) whose returned credit ledger sums to 0 ≠ 5 at
the destination, because the code clears `successful_shards` at the moment
it declares success — so "destination credit sum equals the amount iff the
terminal flag is true" is false after return. -/
theorem conservation_claim_counterexample :
    (send_mpp_payment envAllSucceed 3 1 () 0 pEx).verdict = true ∧
    (send_mpp_payment envAllSucceed 3 1 () 0 pEx).payment.succeeded = true ∧
    ¬ ((creditSumAt (send_mpp_payment envAllSucceed 3 1 () 0 pEx).payment.successful_shards
          (send_mpp_payment envAllSucceed 3 1 () 0 pEx).payment.dest =
        (send_mpp_payment envAllSucceed 3 1 () 0 pEx).payment.amount_msat) ↔
      (send_mpp_payment envAllSucceed 3 1 () 0 pEx).payment.succeeded = true) := by
  decide

/-- Witness for the amended conservation claim at a concrete successful
run. -/
theorem conservation_amended_witness :
    (send_mpp_payment envAllSucceed 3 1 () 0 pEx).payment.successful_shards = [] :=
  (conservation_amended envAllSucceed 3 1 () 0 pEx rfl).1 rfl

/-- C2, counterexample to the claim as stated: a payment with empty ledgers
that fails preflight returns `false` without the Reverter ever being invoked
(the recorded reverter argument is `none`, not a one-time invocation). -/
theorem atomicity_reverter_counterexample :
    (send_mpp_payment envNoBalance 3 1 () 0 pEx).verdict = false ∧
    (send_mpp_payment envNoBalance 3 1 () 0 pEx).reverted = none := by
  decide

/-- Witness for the amended atomicity claim at a concrete failing run that
does enter the scheduler. -/
theorem atomicity_amended_witness :
    (send_mpp_payment envLedgerFail 3 1 gZero 0 pEx).payment.used_paths = [] ∧
    (send_mpp_payment envLedgerFail 3 1 gZero 0 pEx).graph = gZero ∧
    (¬ envLedgerFail.get_total_node_balance gZero pEx.source < pEx.amount_msat →
      ¬ envLedgerFail.get_max_receive_amount gZero pEx.dest < pEx.amount_msat →
      (send_mpp_payment envLedgerFail 3 1 gZero 0 pEx).reverted =
        some (send_mpp_payment envLedgerFail 3 1 gZero 0 pEx).payment.successful_shards) :=
  atomicity_amended envLedgerFail 3 1 gZero 0 pEx
    (fun _ _ => rfl) rfl rfl rfl rfl

/-- Witness for the preflight short-circuit at a concrete input with zero
sender balance. -/
theorem preflight_short_circuit_witness :
    send_mpp_payment envNoBalance 3 1 () 0 pEx =
      { verdict := false
        payment := { pEx with htlc_attempts := pEx.htlc_attempts + 1 }
        graph := ()
        events := [(0 + 1,
          PaymentEvent.updateFailed { pEx with htlc_attempts := pEx.htlc_attempts + 1 })]
        trace := []
        reverted := none } :=
  preflight_short_circuit envNoBalance 3 1 () 0 pEx (Or.inl (by decide))

/-- Witness for attempt monotonicity at a concrete run. -/
theorem attempt_monotonicity_witness :
    (send_mpp_payment envAllSucceed 3 1 () 0 pEx).payment.num_parts =
        successCount (send_mpp_payment envAllSucceed 3 1 () 0 pEx).trace ∧
      (send_mpp_payment envAllSucceed 3 1 () 0 pEx).payment.num_parts ≤
        (send_mpp_payment envAllSucceed 3 1 () 0 pEx).payment.htlc_attempts :=
  attempt_monotonicity envAllSucceed 3 1 () 0 pEx
    (fun g q _ => by show 1 ≤ q.htlc_attempts + 1; omega) rfl rfl

/-- Witness for the drain/early-exit trace preservation at a concrete
verdict-carrying state. -/
theorem drain_early_exit_equiv_witness :
    (mppLoop envAllSucceed 3 2 stDone).trace = stDone.trace ∧
      (mppLoopEarly envAllSucceed 3 2 stDone).trace = stDone.trace :=
  drain_early_exit_equiv.2 Unit envAllSucceed 3 2 stDone rfl

/-- Witness for determinism at a concrete input. -/
theorem determinism_same_inputs_witness :
    send_mpp_payment envAllSucceed 3 1 () 0 pEx =
      send_mpp_payment envAllSucceed 3 1 () 0 pEx :=
  determinism_same_inputs envAllSucceed 3 1 () () 0 pEx pEx rfl rfl

/-- Witness for credit retention at a concrete failing run with one
individually successful shard: the returned payment still carries that
shard's provisional credit. -/
theorem credit_retention_witness :
    (send_mpp_payment envPartial 3 1 () 0 pEx).payment.successful_shards =
      pEx.successful_shards ++ successCredits (send_mpp_payment envPartial 3 1 () 0 pEx).trace :=
  (credit_retention envPartial 3 1 () 0 pEx).2 (by decide)

/-- Witness for re-entry double counting at a concrete run entering with
attempt counter 2. -/
theorem reentry_double_count_witness :
    2 * pH.htlc_attempts + sumNewly (send_mpp_payment envAllSucceed 3 1 () 0 pH).trace ≤
        (send_mpp_payment envAllSucceed 3 1 () 0 pH).payment.htlc_attempts ∧
      (∃ t, (send_mpp_payment envAllSucceed 3 1 () 0 pH).payment.failed_amounts =
        pH.failed_amounts ++ t) ∧
      (∃ t, (send_mpp_payment envAllSucceed 3 1 () 0 pH).payment.failed_paths =
        pH.failed_paths ++ t) :=
  reentry_double_count envAllSucceed 3 1 () 0 pH
    (fun g q => by show q.htlc_attempts ≤ q.htlc_attempts + 1; omega)
    (by decide) (by decide) (by decide)

end MppSim
